import Mathlib

/-!
# Verification of the crawl-and-extract pipeline scripts

Shallow embedding of the core logic of the startup-directory scraping
scripts (`find_contact_email.py`, `eu_startups_crawler.py`,
`eu_startups_scraper.py`) together with proofs of the behavioural
properties stated about them.

External collaborators (the HTTP library, BeautifulSoup, the crawl4ai
LLM backend, file I/O) are modelled as oracle arguments: a fetch
function returns the already-parsed structure a successful call would
yield, or `none` for a failure.  Everything the scripts themselves
compute (regex scans, filters, candidate construction, loop control,
row construction) is translated directly from the Python source.
-/

/-! ## Email regex scan (`find_contact_email.py`)

`EMAIL_REGEX = r'[a-zA-Z0-9._%+-]+@[a-zA-Z0-9.-]+\.[a-zA-Z]{2,}'` applied
with `re.findall`, followed by the `is_valid_email` extension filter.
The three character classes of the pattern: -/

/-- Characters of the local-part class `[a-zA-Z0-9._%+-]`. -/
def isLocalChar (c : Char) : Bool :=
  c.isAlphanum || c = '.' || c = '_' || c = '%' || c = '+' || c = '-'

/-- Characters of the domain class `[a-zA-Z0-9.-]`. -/
def isDomainChar (c : Char) : Bool :=
  c.isAlphanum || c = '.' || c = '-'

/-- Characters of the TLD class `[a-zA-Z]`. -/
def isTldChar (c : Char) : Bool := c.isAlpha

/-- Backtracking step of the domain part: the pattern `[a-zA-Z0-9.-]+\.[a-zA-Z]{2,}`
first consumes the maximal domain-class run, then gives characters back until the
rightmost `.` that is followed by at least two letters.  Given the maximal run,
returns `some (pre, suf)` splitting it as `pre ++ '.' :: suf` at that rightmost
viable dot, where the TLD is the maximal letter run at the head of `suf`. -/
def rightmostTldDot : List Char → Option (List Char × List Char)
  | [] => none
  | c :: rest =>
    match rightmostTldDot rest with
    | some (pre, suf) => some (c :: pre, suf)
    | none =>
      if c = '.' && (rest.takeWhile isTldChar).length ≥ 2 then
        some ([], rest)
      else
        none

/-- Try to match `EMAIL_REGEX` at the head of the character list
(Python `re` semantics: greedy quantifiers with backtracking).
Returns the matched email and the unconsumed remainder. -/
def matchEmailAt (cs : List Char) : Option (List Char × List Char) :=
  let lrun := cs.takeWhile isLocalChar
  let rest := cs.dropWhile isLocalChar
  if lrun.isEmpty then none
  else
    match rest with
    | '@' :: afterAt =>
      let drun := afterAt.takeWhile isDomainChar
      let afterD := afterAt.dropWhile isDomainChar
      match rightmostTldDot drun with
      | some (pre, suf) =>
        let tld := suf.takeWhile isTldChar
        let leftover := suf.dropWhile isTldChar
        some (lrun ++ '@' :: pre ++ '.' :: tld, leftover ++ afterD)
      | none => none
    | _ => none

/-- Model of `re.findall(EMAIL_REGEX, text)`: scan left to right, collecting
non-overlapping leftmost matches.  Fuel is the remaining length bound;
each step consumes at least one character. -/
def findallEmails : Nat → List Char → List (List Char)
  | 0, _ => []
  | _ + 1, [] => []
  | fuel + 1, c :: rest =>
    match matchEmailAt (c :: rest) with
    | some (m, leftover) => m :: findallEmails fuel leftover
    | none => findallEmails fuel rest

/-- List `EXCLUDED_EXTENSIONS` from `find_contact_email.py`. -/
def EXCLUDED_EXTENSIONS : List String :=
  [".png", ".jpg", ".jpeg", ".gif", ".webp", ".svg", ".ico", ".pdf", ".doc", ".docx"]

/-- Python `str.lower` (ASCII case folding, as used on the email candidates). -/
def pyLower (s : String) : String := String.mk (s.data.map Char.toLower)

/-- Python `str.strip()`: whitespace removed from both ends. -/
def pyStrip (s : String) : String :=
  String.mk (((s.data.dropWhile Char.isWhitespace).reverse.dropWhile
    Char.isWhitespace).reverse)

/-- Python `str.split(sep)` for a non-empty separator: split at each
non-overlapping occurrence, left to right.  Fuel bounds the scan by the
input length (each step consumes at least one character). -/
def pySplitAux (sep : List Char) : Nat → List Char → List Char → List (List Char)
  | _, [], acc => [acc.reverse]
  | 0, s, acc => [acc.reverse ++ s]
  | fuel + 1, c :: rest, acc =>
    if !sep.isEmpty && sep.isPrefixOf (c :: rest) then
      acc.reverse :: pySplitAux sep fuel ((c :: rest).drop sep.length) []
    else pySplitAux sep fuel rest (c :: acc)

/-- Python `str.split(sep)`. -/
def pySplit (s sep : String) : List String :=
  (pySplitAux sep.data s.data.length s.data []).map String.mk

/-- Python `str.endswith`. -/
def pyEndsWith (s suffix : String) : Bool := suffix.data.isSuffixOf s.data

/-- Filter `is_valid_email`: non-empty and not ending (case-insensitively) in a
known non-email file extension. -/
def is_valid_email (email : String) : Bool :=
  if email = "" then false
  else EXCLUDED_EXTENSIONS.all fun ext => !(pyEndsWith (pyLower email) ext)

/-- Function `extract_emails_from_text`: regex findall then the validity filter. -/
def extract_emails_from_text (text : String) : List String :=
  ((findallEmails text.data.length text.data).map fun l => String.mk l).filter
    is_valid_email

/-! ## `mailto:` extraction and contact-link collection
(`extract_links_from_page` / the mailto branch of `scan_page_for_emails`) -/

/-- Python `str.startswith`. -/
def pyStartsWith (s pre : String) : Bool := pre.data.isPrefixOf s.data

/-- Python `in` on strings (substring containment). -/
def pyInStr (needle hay : String) : Bool :=
  hay.data.tails.any fun t => needle.data.isPrefixOf t

/-- Model of the search for the mailto pattern: leftmost occurrence of `mailto:`
followed by at least one non-`?` character; the group is the maximal
non-`?` run after it. -/
def mailtoSearchAux : List Char → Option (List Char)
  | [] => none
  | c :: rest =>
    if ("mailto:".data).isPrefixOf (c :: rest) then
      let addr := ((c :: rest).drop 7).takeWhile fun ch => ch != '?'
      if addr.isEmpty then mailtoSearchAux rest else some addr
    else mailtoSearchAux rest

/-- The email address a `mailto:` href yields (group 1 of the search), if any. -/
def mailtoSearch (href : String) : Option String :=
  (mailtoSearchAux href.data).map String.mk

/-- Base URL `scheme://netloc` computed from
`urllib.parse.urlparse(url)` for the root-relative-href case. -/
def schemeNetlocOf (u : String) : String :=
  match pySplit u "://" with
  | scheme :: rest :: _ => scheme ++ "://" ++ String.mk (rest.data.takeWhile fun c => c != '/')
  | _ => "://"

/-- An `<a href="...">text</a>` match of the link pattern in
`extract_links_from_page` (the HTML-matching itself is external). -/
structure Anchor where
  href : String
  text : String

/-- The per-anchor loop of `extract_links_from_page`: `mailto:` hrefs
contribute their address to the second component (no validity filter);
other anchors whose text or href contains a contact keyword contribute
a `(text, absolute url)` link to the first component. -/
def processAnchors (keywords : List String) (url : String) :
    List Anchor → List (String × String) × List String
  | [] => ([], [])
  | a :: rest =>
    let t := pyStrip a.text
    let (links, mails) := processAnchors keywords url rest
    if pyStartsWith a.href "mailto:" then
      match mailtoSearch a.href with
      | some e => (links, e :: mails)
      | none => (links, mails)
    else if keywords.any fun k =>
        pyInStr (pyLower k) (pyLower t) || pyInStr (pyLower k) (pyLower a.href) then
      let href := if pyStartsWith a.href "/" then schemeNetlocOf url ++ a.href else a.href
      ((t, href) :: links, mails)
    else (links, mails)

/-- Function `extract_links_from_page`: on a failed crawl nothing is returned;
on success the anchor loop above runs. -/
def extract_links_from_page (keywords : List String) (url : String)
    (success : Bool) (anchors : List Anchor) : List (String × String) × List String :=
  if success then processAnchors keywords url anchors else ([], [])

/-! ## Secondary (LLM) extraction in `scan_page_for_emails` -/

/-- Outcome of one LLM-extraction attempt, as observed by the retry loop. -/
inductive LLMOutcome where
  | jsonEmails (es : List String)
  | jsonNoEmails
  | rawText (t : String)
  | noContent
  | timedOut
  | exn (configClass : Bool)

/-- Constant `max_retries = 2` in `scan_page_for_emails`. -/
def MAX_LLM_RETRIES : Nat := 2

/-- The `while attempt < max_retries and not llm_success` loop.
Arguments: the per-attempt outcome oracle, remaining fuel, attempts made
so far.  Returns the emails gathered and the number of attempts made.
A JSON result with an emails key succeeds (filtered through
`is_valid_email`); invalid JSON is re-scanned with the regex and
succeeds only if that finds something; a timeout or a detected
configuration-class API error stops the loop for this call; any other
exception is retried while attempts remain. -/
def llmRetryLoop (oracle : Nat → LLMOutcome) : Nat → Nat → List String × Nat
  | 0, attempt => ([], attempt)
  | fuel + 1, attempt =>
    if attempt < MAX_LLM_RETRIES then
      match oracle (attempt + 1) with
      | .jsonEmails es => (es.filter is_valid_email, attempt + 1)
      | .jsonNoEmails => llmRetryLoop oracle fuel (attempt + 1)
      | .rawText t =>
        let additional := extract_emails_from_text t
        if additional.isEmpty then llmRetryLoop oracle fuel (attempt + 1)
        else (additional, attempt + 1)
      | .noContent => llmRetryLoop oracle fuel (attempt + 1)
      | .timedOut => ([], attempt + 1)
      | .exn true => ([], attempt + 1)
      | .exn false => llmRetryLoop oracle fuel (attempt + 1)
    else ([], attempt)

/-- Result of the primary page crawl as seen by `scan_page_for_emails`. -/
structure FetchPage where
  success : Bool
  cleanedHtml : String

/-- Function `scan_page_for_emails`: a `mailto:` url short-circuits to its address;
otherwise the page is regex-scanned, and only when that yields nothing
(and an LLM strategy is configured) the retry loop runs.  The second
component counts LLM attempts made by this call. -/
def scan_page_for_emails (url : String) (page : FetchPage)
    (llm : Option (Nat → LLMOutcome)) : List String × Nat :=
  if pyStartsWith url "mailto:" then
    match mailtoSearch url with
    | some e => ([e], 0)
    | none => ([], 0)
  else
    let emails := if page.success then extract_emails_from_text page.cleanedHtml else []
    match llm with
    | some oracle =>
      if emails.isEmpty then llmRetryLoop oracle MAX_LLM_RETRIES 0 else (emails, 0)
    | none => (emails, 0)

/-- Scanning several pages in sequence (as `find_emails_for_company` and
the company loops do): each call to `scan_page_for_emails` is
independent; the scripts keep no state between calls. -/
def scan_pages_in_sequence
    (inputs : List (String × FetchPage × Option (Nat → LLMOutcome))) :
    List (List String × Nat) :=
  inputs.map fun i => scan_page_for_emails i.1 i.2.1 i.2.2

/-! ## SeedTable domain guessing (`get_company_info_from_seedtable`) -/

/-- Model of `company_id.split('-')[0] if '-' in company_id else company_id`. -/
def seedtableRawName (companyId : String) : String :=
  if companyId.data.contains '-' then (pySplit companyId "-").headD "" else companyId

/-- Model of the underscore-run substitution: each run of underscores becomes one space.
The flag records whether the previous character was an underscore. -/
def subUnderscoreRuns : List Char → Bool → List Char
  | [], _ => []
  | c :: rest, prevU =>
    if c = '_' then
      (if prevU then [] else [' ']) ++ subUnderscoreRuns rest true
    else c :: subUnderscoreRuns rest false

/-- A hexadecimal digit, for the `%[0-9A-Fa-f]{2}` pattern. -/
def isHexDigit (c : Char) : Bool :=
  c.isDigit || ('a' ≤ c && c ≤ 'f') || ('A' ≤ c && c ≤ 'F')

/-- Model of the percent-escape removal: drop each URL-escape triple. -/
def removePctHex : List Char → List Char
  | '%' :: a :: b :: rest =>
    if isHexDigit a && isHexDigit b then removePctHex rest
    else '%' :: removePctHex (a :: b :: rest)
  | c :: rest => c :: removePctHex rest
  | [] => []

/-- The cleaned `company_info["name"]` derived from the SeedTable slug. -/
def cleanSeedtableName (companyId : String) : String :=
  pyStrip (String.mk (removePctHex (subUnderscoreRuns (seedtableRawName companyId).data false)))

/-- Python `\w` on ASCII: letters, digits, underscore. -/
def isWordChar (c : Char) : Bool := c.isAlphanum || c = '_'

/-- Model of the non-word-character removal (after lowercasing) in the
name-based guessing branch. -/
def cleanForDomain (name : String) : String :=
  String.mk ((pyLower name).data.filter isWordChar)

/-- The alternation of `re.sub(r'-(inc|gmbh|llc|ltd|ab|co|group)$', '', ...)`. -/
def CORPORATE_SUFFIXES : List String :=
  ["-inc", "-gmbh", "-llc", "-ltd", "-ab", "-co", "-group"]

/-- Strip a known corporate suffix from the end of a LinkedIn company slug. -/
def stripCorporateSuffix (slug : String) : String :=
  match CORPORATE_SUFFIXES.find? fun suf => pyEndsWith slug suf with
  | some suf => String.mk (slug.data.take (slug.data.length - suf.data.length))
  | none => slug

/-- Model of `linkedin.split('linkedin.com/company/')[-1].split('/')[0].strip()`. -/
def linkedinSlug (url : String) : String :=
  pyStrip (((pySplit ((pySplit url "linkedin.com/company/").getLastD "") "/")).headD "")

/-- The two candidates of the LinkedIn guessing branch (`.com` only). -/
def linkedinGuesses (cleanName : String) : List String :=
  ["https://" ++ cleanName ++ ".com", "https://www." ++ cleanName ++ ".com"]

/-- The six candidates of the company-name guessing branch, in source order:
`.com` pair, then `.io` pair, then `.co` pair. -/
def nameGuesses (cleanName : String) : List String :=
  ["https://" ++ cleanName ++ ".com", "https://www." ++ cleanName ++ ".com",
   "https://" ++ cleanName ++ ".io", "https://www." ++ cleanName ++ ".io",
   "https://" ++ cleanName ++ ".co", "https://www." ++ cleanName ++ ".co"]

/-- The candidate list of the name-based branch for a SeedTable slug. -/
def seedtableNameCandidates (companyId : String) : List String :=
  nameGuesses (cleanForDomain (cleanSeedtableName companyId))

/-- The probe loop: `requests.head(guess, timeout=3)`; accept the first
candidate answering with status < 400; an exception (`none`) or a status
≥ 400 moves on to the next candidate. -/
def firstAccepted (probe : String → Option Nat) : List String → Option String
  | [] => none
  | g :: rest =>
    match probe g with
    | some code => if code < 400 then some g else firstAccepted probe rest
    | none => firstAccepted probe rest

/-- The fallback guessing of `get_company_info_from_seedtable` when the
structural website lookup found nothing: first the LinkedIn-slug branch
(suffix-stripped, `.com` candidates only), then — only if that found
nothing — the name-based branch. -/
def guess_company_website (probe : String → Option Nat)
    (companyId : String) (linkedin : Option String) : Option String :=
  let fromLinkedin :=
    match linkedin with
    | some lurl =>
      let path := linkedinSlug lurl
      if path = "" then none
      else firstAccepted probe (linkedinGuesses (stripCorporateSuffix path))
    | none => none
  match fromLinkedin with
  | some w => some w
  | none => firstAccepted probe (seedtableNameCandidates companyId)

/-- The full ordered candidate chain the two branches probe. -/
def seedtableCandidateChain (companyId : String) (linkedin : Option String) : List String :=
  (match linkedin with
   | some lurl =>
     let path := linkedinSlug lurl
     if path = "" then [] else linkedinGuesses (stripCorporateSuffix path)
   | none => []) ++ seedtableNameCandidates companyId

/-! ## Listing pagination (`EUStartupsCrawler.extract_company_links`) -/

/-- The next-page affordance of a listing page: `span.next` absent,
present without an `<a>`, or an `<a>` with its (possibly empty) href. -/
inductive NextAffordance where
  | noSpan
  | spanNoLink
  | link (href : String)
deriving DecidableEq

/-- One `div.wpbdp-listing-excerpt` container; `title` is the
`(text, href)` of the title link when both the title div and its `<a>`
are present. -/
structure ListingEntry where
  title : Option (String × String)
deriving DecidableEq

/-- A parsed listing page. -/
structure ListingPage where
  entries : List ListingEntry
  nextA : NextAffordance
deriving DecidableEq

/-- The per-listing extraction: keep `(text.strip(), href)` for entries
with a title link and a non-empty href. -/
def entryCompanies (entries : List ListingEntry) : List (String × String) :=
  entries.flatMap fun e =>
    match e.title with
    | some (txt, href) => if href = "" then [] else [(pyStrip txt, href)]
    | none => []

/-- Resolution of the next-page href to an absolute URL. -/
def resolveNextUrl (urljoin : String → String → String)
    (countryUrl currentUrl nextUrl : String) : String :=
  if pyStartsWith nextUrl "http" then nextUrl
  else if pyStartsWith nextUrl "/" then schemeNetlocOf countryUrl ++ nextUrl
  else urljoin currentUrl nextUrl

/-- The `while True` pagination loop of `extract_company_links`.
`fetch` abstracts `_get_page_content` plus BeautifulSoup (`none` for an
empty/failed fetch).  Returns the accumulated companies and the list of
fetched URLs in order.  The source loop is unbounded (its `max_pages`
parameter is never used), so the model takes fuel; a run that stops via
one of the source's `break` conditions is fuel-independent once the fuel
covers it. -/
def extractCompanyLinksLoop (fetch : String → Option ListingPage)
    (urljoin : String → String → String) (countryUrl : String) :
    Nat → String → List (String × String) × List String
  | 0, _ => ([], [])
  | fuel + 1, url =>
    match fetch url with
    | none => ([], [url])
    | some p =>
      if p.entries.isEmpty then ([], [url])
      else
        let cs := entryCompanies p.entries
        match p.nextA with
        | .noSpan => (cs, [url])
        | .spanNoLink => (cs, [url])
        | .link href =>
          if href = "" then (cs, [url])
          else
            let nxt := resolveNextUrl urljoin countryUrl url href
            let r := extractCompanyLinksLoop fetch urljoin countryUrl fuel nxt
            (cs ++ r.1, url :: r.2)

/-- Function `extract_company_links(country_url)`: start the loop at the
country page. -/
def extract_company_links (fetch : String → Option ListingPage)
    (urljoin : String → String → String) (countryUrl : String) (fuel : Nat) :
    List (String × String) × List String :=
  extractCompanyLinksLoop fetch urljoin countryUrl fuel countryUrl

/-! ## Fetchers (`_get_page_content` in crawler and scraper) -/

/-- Outcome of the single `session.get` + `raise_for_status`. -/
inductive HttpResponse where
  | ok (body : String)
  | httpError (code : Nat)
  | netError
deriving DecidableEq

/-- What one `_get_page_content` call did: the returned content, the total
time slept (milliseconds), and the number of HTTP requests issued. -/
structure FetchResult where
  content : String
  sleptMs : Nat
  requestCount : Nat
deriving DecidableEq

def CRAWLER_DELAY_MS : Nat := 2000
def SCRAPER_DELAY_MS : Nat := 500
def SCRAPER_RATE_LIMIT_BACKOFF_MS : Nat := 5000

/-- Model of `EUStartupsCrawler._get_page_content`: one request; the fixed delay is
slept in a `finally`, on success and failure alike; no 429 special case. -/
def crawler_get_page_content (resp : HttpResponse) : FetchResult :=
  match resp with
  | .ok body => ⟨body, CRAWLER_DELAY_MS, 1⟩
  | .httpError _ => ⟨"", CRAWLER_DELAY_MS, 1⟩
  | .netError => ⟨"", CRAWLER_DELAY_MS, 1⟩

/-- Model of `EUStartupsScraper._get_page_content`: one request; the fixed delay is
slept only on the success path; a 429 HTTP error sleeps a fixed 5 seconds
before returning failure; any other failure sleeps nothing. -/
def scraper_get_page_content (resp : HttpResponse) : FetchResult :=
  match resp with
  | .ok body => ⟨body, SCRAPER_DELAY_MS, 1⟩
  | .httpError code =>
    ⟨"", if code = 429 then SCRAPER_RATE_LIMIT_BACKOFF_MS else 0, 1⟩
  | .netError => ⟨"", 0, 1⟩

/-! ## Detail resolver (`EUStartupsScraper.extract_website_url`) -/

/-- The structural lookups of a parsed company page.  `tdHeaderTitle` is
present when `div.td-page-header` holds an `h1.entry-title`; its first
component is the inner span's text when a span exists, the second the
h1's own text.  `websiteFieldValue` is present when
`div.wpbdp-field-website` exists; its inner option when its
`div.value` exists. -/
structure CompanyPage where
  tdHeaderTitle : Option (Option String × String)
  wpbdpListingTitle : Option String
  h1Texts : List String
  websiteFieldValue : Option (Option String)
deriving DecidableEq

/-- The record `extract_website_url` returns. -/
structure CompanyRecord where
  name : String
  eu_startups_url : String
  website_url : String
deriving DecidableEq

/-- The three-stage name fallback chain of `extract_website_url`. -/
def extractCompanyName (p : CompanyPage) : String :=
  let n1 :=
    match p.tdHeaderTitle with
    | some (some spanText, _) => pyStrip spanText
    | some (none, titleText) => pyStrip titleText
    | none => ""
  if n1 ≠ "" then n1
  else
    let n2 :=
      match p.wpbdpListingTitle with
      | some t => pyStrip t
      | none => ""
    if n2 ≠ "" then n2
    else
      match p.h1Texts with
      | t :: _ => pyStrip t
      | [] => ""

/-- The `div.wpbdp-field-website` → `div.value` lookup. -/
def extractWebsiteField (p : CompanyPage) : String :=
  match p.websiteFieldValue with
  | some (some v) => pyStrip v
  | _ => ""

/-- Function `extract_website_url(company_url)`: on a failed fetch, a record with
empty name and website but the input URL preserved; otherwise the
structural lookups above. -/
def extract_website_url (fetch : String → Option CompanyPage)
    (companyUrl : String) : CompanyRecord :=
  match fetch companyUrl with
  | none => ⟨"", companyUrl, ""⟩
  | some p => ⟨extractCompanyName p, companyUrl, extractWebsiteField p⟩

/-! ## Email-extraction stage rows
(`process_company` / `process_consolidated_csv` in `find_contact_email.py`) -/

/-- An input record of the consolidated CSV (fields the stage reads). -/
structure InputCompany where
  name : String
  country : String
  eu_startups_url : String
  website_url : String
deriving DecidableEq

/-- An output row of the stage. -/
structure OutputRow where
  name : String
  country : String
  eu_startups_url : String
  website_url : String
  emails : String
deriving DecidableEq

/-- Outcome of `find_emails_for_company` for a given website URL:
a list of emails, or an exception with its message. -/
inductive EmailOutcome where
  | ok (emails : List String)
  | err (reason : String)

/-- Model of `','.join(emails)`. -/
def joinComma : List String → String
  | [] => ""
  | [s] => s
  | s :: rest => s ++ "," ++ joinComma rest

/-- The output row for a company with the given emails field. -/
def rowFor (c : InputCompany) (emails : String) : OutputRow :=
  ⟨c.name, c.country, c.eu_startups_url, c.website_url, emails⟩

/-- Function `process_company`: the rows written for one input record — exactly one
on every path: empty-URL skip writes an empty emails field, success the
comma-joined emails, an exception an `ERROR:` marker. -/
def process_company (oracle : String → EmailOutcome) (c : InputCompany) :
    List OutputRow :=
  if c.website_url = "" then [rowFor c ""]
  else
    match oracle c.website_url with
    | .ok es => [rowFor c (if es.isEmpty then "" else joinComma es)]
    | .err r => [rowFor c ("ERROR: " ++ r)]

/-- The seen-set read from an existing output file: its non-empty
`website_url` values. -/
def existingSeen (existing : List OutputRow) : List String :=
  (existing.map fun r => r.website_url).filter fun k => k ≠ ""

/-- Function `process_consolidated_csv` (resume confirmed): read the existing
output file (`none` when absent), populate the seen-set from its
`website_url` column, filter the input against it, and append the new
rows to the kept file content (`mode='a'` only when the seen-set is
non-empty, otherwise the file is rewritten); when nothing is left to do
the file is not reopened at all.  Returns the output file's rows. -/
def process_consolidated_csv (oracle : String → EmailOutcome)
    (input : List InputCompany) (existingFile : Option (List OutputRow)) :
    List OutputRow :=
  let existing := existingFile.getD []
  let seen := existingSeen existing
  let todo :=
    if seen.isEmpty then input
    else input.filter fun c => !(seen.contains c.website_url)
  if todo.isEmpty then existing
  else (if seen.isEmpty then [] else existing) ++ todo.flatMap (process_company oracle)

/-! ## Concrete fixtures used by the theorems below -/

/-- Whether a listing page halts pagination in `extract_company_links`:
no containers, no `span.next`, a `span.next` without a link, or an empty
next href. -/
def pageHalts (p : ListingPage) : Prop :=
  p.entries = [] ∨ p.nextA = .noSpan ∨ p.nextA = .spanNoLink ∨ p.nextA = .link ""

/-- A chain of successfully fetched, non-empty listing pages, each linking
to the next by an absolute (`http...`), non-empty href.
`ListingChain fetch u mids lastUrl` says: starting at `u`, the pages in
`mids` are traversed in order and the chain ends at `lastUrl`. -/
inductive ListingChain (fetch : String → Option ListingPage) :
    String → List (String × ListingPage) → String → Prop
  | last (u : String) : ListingChain fetch u [] u
  | step (u v : String) (p : ListingPage) (rest : List (String × ListingPage))
      (lastUrl : String) :
      fetch u = some p → p.entries ≠ [] → p.nextA = .link v → v ≠ "" →
      pyStartsWith v "http" = true →
      ListingChain fetch v rest lastUrl →
      ListingChain fetch u ((u, p) :: rest) lastUrl

/-- Fixture: a listing page whose next link points back to itself. -/
def selfLoopUrl : String := "http://directory.example/startups"

/-- Fixture: the self-linking page (one extractable listing). -/
def selfLoopPage : ListingPage :=
  ⟨[⟨some ("Acme", "http://directory.example/acme")⟩], .link selfLoopUrl⟩

/-- Fixture: fetch function serving only the self-linking page. -/
def selfLoopFetch : String → Option ListingPage :=
  fun u => if u = selfLoopUrl then some selfLoopPage else none

/-- Fixture: four listing pages; pages 1–3 have a container whose title
link is missing (so they yield no records) yet carry a next link; page 4
has a record and no next-page affordance. -/
def emptyPagesFetch : String → Option ListingPage := fun u =>
  if u = "http://l.example/p1" then some ⟨[⟨none⟩], .link "http://l.example/p2"⟩
  else if u = "http://l.example/p2" then some ⟨[⟨none⟩], .link "http://l.example/p3"⟩
  else if u = "http://l.example/p3" then some ⟨[⟨none⟩], .link "http://l.example/p4"⟩
  else if u = "http://l.example/p4" then
    some ⟨[⟨some ("Last", "http://l.example/last")⟩], .noSpan⟩
  else none

/-- Fixture: first page of a two-page chain. -/
def chainPageOne : ListingPage :=
  ⟨[⟨some ("A", "http://w.example/a")⟩], .link "http://w.example/2"⟩

/-- Fixture: second (final) page of the two-page chain. -/
def chainPageTwo : ListingPage :=
  ⟨[⟨some ("B", "http://w.example/b")⟩], .noSpan⟩

/-- Fixture: fetch function for the two-page chain. -/
def chainFetchTwo : String → Option ListingPage := fun u =>
  if u = "http://w.example/1" then some chainPageOne
  else if u = "http://w.example/2" then some chainPageTwo
  else none

/-- Fixture: an input CSV whose two records share one `website_url`. -/
def dupKeyInput : List InputCompany :=
  [⟨"Acme", "Germany", "http://eu.example/d/acme", "https://a.com"⟩,
   ⟨"Acme Labs", "Germany", "http://eu.example/d/acme-labs", "https://a.com"⟩]

/-- Fixture: an email oracle that always succeeds with no emails. -/
def okEmptyOracle : String → EmailOutcome := fun _ => .ok []

/-- Fixture: an input CSV with two distinct, non-empty keys. -/
def resumeInput : List InputCompany :=
  [⟨"Acme", "Germany", "http://eu.example/d/acme", "https://a.com"⟩,
   ⟨"Beta", "France", "http://eu.example/d/beta", "https://b.com"⟩]

/-- Fixture: an interrupted first run's output — only the first record's row. -/
def resumePartial : List OutputRow :=
  [⟨"Acme", "Germany", "http://eu.example/d/acme", "https://a.com", ""⟩]

/-! ## Theorems -/

/-- C3 counterexample: the claim says the filter rejects
`"info@example.com"` as a placeholder domain, but no placeholder-domain
rule exists anywhere in the source: the candidate matches the regex, and
`is_valid_email` (which only checks file extensions) accepts it. -/
theorem c3_counterexample_placeholder_accepted :
    extract_emails_from_text "info@example.com" = ["info@example.com"] ∧
    is_valid_email "info@example.com" = true := by decide

/-- C3 (amended): on the candidate strings the extractor rejects
`"logo.png"` (no `@`, so the regex never matches), accepts
`"contact@foo.io"`, rejects `"a@b.c"` (the regex demands a TLD of at
least two letters), and — contrary to the claim — accepts
`"info@example.com"`, since the source has no placeholder-domain rule. -/
theorem c3_validity_filter_theorem :
    extract_emails_from_text "logo.png" = [] ∧
    extract_emails_from_text "contact@foo.io" = ["contact@foo.io"] ∧
    extract_emails_from_text "a@b.c" = [] ∧
    extract_emails_from_text "info@example.com" = ["info@example.com"] := by decide

/-- C2: `process_company` writes exactly one output row for every input
record, the row's identity key equals the record's, and the emails field
is the comma-join on success (empty when no URL or no emails) or an
`ERROR: <reason>` marker when `find_emails_for_company` raised. -/
theorem c2_exactly_one_row_per_company (oracle : String → EmailOutcome)
    (c : InputCompany) :
    ∃ row, process_company oracle c = [row] ∧ row.website_url = c.website_url ∧
      ((c.website_url = "" ∧ row.emails = "") ∨
       (∃ es, oracle c.website_url = .ok es ∧
          row.emails = if es.isEmpty then "" else joinComma es) ∨
       (∃ r, oracle c.website_url = .err r ∧ row.emails = "ERROR: " ++ r)) := by
  by_cases h : c.website_url = ""
  · exact ⟨rowFor c "", by simp [process_company, h], rfl, Or.inl ⟨h, rfl⟩⟩
  · cases ho : oracle c.website_url with
    | ok es =>
      exact ⟨rowFor c (if es.isEmpty then "" else joinComma es),
        by simp [process_company, h, ho], rfl, Or.inr (Or.inl ⟨es, rfl, rfl⟩)⟩
    | err r =>
      exact ⟨rowFor c ("ERROR: " ++ r),
        by simp [process_company, h, ho], rfl, Or.inr (Or.inr ⟨r, rfl, rfl⟩)⟩

/-- C8 counterexample: on a network error the scraper's fetcher sleeps
nothing at all (the politeness delay sits on the success path only), on a
non-429 HTTP error it also sleeps nothing, the crawler's fetcher applies
its ordinary delay to a 429 with no longer back-off, and the scraper's
429 back-off is a fixed 5 s — 10x its normal delay, not about 5x. -/
theorem c8_counterexample_no_delay_on_failure :
    (scraper_get_page_content .netError).sleptMs = 0 ∧
    (scraper_get_page_content (.httpError 500)).sleptMs = 0 ∧
    (crawler_get_page_content (.httpError 429)).sleptMs = CRAWLER_DELAY_MS ∧
    SCRAPER_RATE_LIMIT_BACKOFF_MS = 10 * SCRAPER_DELAY_MS := by decide

/-- C8 (amended): both fetchers issue exactly one request per call (no
internal retry).  The crawler's fetcher sleeps its fixed delay after
every call regardless of outcome and has no 429 special case; the
scraper's fetcher sleeps its fixed delay only on success, sleeps a fixed
5-second back-off before returning failure exactly on a 429 response,
and sleeps nothing on any other failure. -/
theorem c8_fetcher_delay_theorem (resp : HttpResponse) :
    (crawler_get_page_content resp).sleptMs = CRAWLER_DELAY_MS ∧
    (crawler_get_page_content resp).requestCount = 1 ∧
    (scraper_get_page_content resp).requestCount = 1 ∧
    (∀ body, resp = .ok body →
      scraper_get_page_content resp = ⟨body, SCRAPER_DELAY_MS, 1⟩) ∧
    scraper_get_page_content (.httpError 429)
      = ⟨"", SCRAPER_RATE_LIMIT_BACKOFF_MS, 1⟩ ∧
    (∀ code, code ≠ 429 → scraper_get_page_content (.httpError code) = ⟨"", 0, 1⟩) ∧
    scraper_get_page_content .netError = ⟨"", 0, 1⟩ := by
  refine ⟨?_, ?_, ?_, ?_, by decide, ?_, by decide⟩
  · cases resp <;> rfl
  · cases resp <;> rfl
  · cases resp <;> rfl
  · rintro body rfl; rfl
  · intro code hc; simp [scraper_get_page_content, hc]

/-- Witness for C8's theorem at concrete responses. -/
theorem c8_fetcher_delay_witness :
    scraper_get_page_content (.ok "<html>") = ⟨"<html>", SCRAPER_DELAY_MS, 1⟩ ∧
    scraper_get_page_content (.httpError 503) = ⟨"", 0, 1⟩ :=
  ⟨(c8_fetcher_delay_theorem (.ok "<html>")).2.2.2.1 "<html>" rfl,
   (c8_fetcher_delay_theorem (.httpError 503)).2.2.2.2.2.1 503 (by decide)⟩

/-- C10: `extract_website_url` always returns a record whose
`eu_startups_url` equals the input URL, and on a failed fetch both the
name and the website are empty; the model is a total function, mirroring
the source's catch-all error handling (no exception escapes). -/
theorem c10_identity_preserved_theorem (fetch : String → Option CompanyPage)
    (url : String) :
    (extract_website_url fetch url).eu_startups_url = url ∧
    (fetch url = none →
      (extract_website_url fetch url).name = "" ∧
      (extract_website_url fetch url).website_url = "") := by
  unfold extract_website_url
  cases h : fetch url <;> simp

/-- Witness for C10's theorem at a concrete failing fetch. -/
theorem c10_identity_preserved_witness :
    (extract_website_url (fun _ => none) "https://www.eu-startups.com/directory/acme/").eu_startups_url
      = "https://www.eu-startups.com/directory/acme/" ∧
    (extract_website_url (fun _ => none) "https://www.eu-startups.com/directory/acme/").name = "" ∧
    (extract_website_url (fun _ => none) "https://www.eu-startups.com/directory/acme/").website_url = "" := by
  have h := c10_identity_preserved_theorem (fun _ => none)
    "https://www.eu-startups.com/directory/acme/"
  exact ⟨h.1, (h.2 rfl).1, (h.2 rfl).2⟩

/-- C7 counterexample: the listing loop has no cycle guard — when a
page's next link resolves to the page's own URL the loop fetches the
same URL again (three times in three iterations here), so a listing-page
URL is fetched twice within one pass. -/
theorem c7_counterexample_self_loop_refetch :
    (extract_company_links selfLoopFetch (fun _ n => n) selfLoopUrl 3).2
      = [selfLoopUrl, selfLoopUrl, selfLoopUrl] ∧
    ¬ ((extract_company_links selfLoopFetch (fun _ n => n) selfLoopUrl 3).2).Nodup := by
  decide

/-- C7 (amended): there is no cycle guard: a next-page URL equal to the
current page's URL is followed again, and the loop refetches that URL
once per available iteration (the source's `while True` has no bound —
its `max_pages` parameter is unused — so the model's fuel is the only
cutoff). -/
theorem c7_no_cycle_guard_theorem (fuel : Nat) :
    (extract_company_links selfLoopFetch (fun _ n => n) selfLoopUrl fuel).2
      = List.replicate fuel selfLoopUrl := by
  unfold extract_company_links
  induction fuel with
  | zero => rfl
  | succ f ih =>
    have hf : selfLoopFetch selfLoopUrl = some selfLoopPage := by decide
    have hs : pyStartsWith selfLoopUrl "http" = true := by decide
    have hne : ¬ (selfLoopUrl = "") := by decide
    rw [extractCompanyLinksLoop, hf]
    simp [selfLoopPage, resolveNextUrl, hs, hne, ih, List.replicate_succ]

/-- Probing `firstAccepted` over a concatenation tries the left candidates
first. -/
theorem firstAccepted_append (probe : String → Option Nat) (l r : List String) :
    firstAccepted probe (l ++ r)
      = match firstAccepted probe l with
        | some w => some w
        | none => firstAccepted probe r := by
  induction l with
  | nil => simp [firstAccepted]
  | cons g gs ih =>
    simp only [List.cons_append, firstAccepted]
    cases probe g with
    | none => exact ih
    | some code => by_cases h : code < 400 <;> simp [h, ih]

/-- The loop `firstAccepted` returns the first candidate whose probe answers
with a
status below 400; probe exceptions and error statuses are skipped. -/
theorem firstAccepted_eq_find (probe : String → Option Nat) (gs : List String) :
    firstAccepted probe gs
      = gs.find? fun g =>
          match probe g with
          | some code => decide (code < 400)
          | none => false := by
  induction gs with
  | nil => rfl
  | cons g rest ih =>
    simp only [firstAccepted, List.find?]
    cases hp : probe g with
    | none => simpa using ih
    | some code => by_cases h : code < 400 <;> simp [h, ih]

/-- The two guessing branches together probe exactly the concatenated
candidate chain, in order. -/
theorem guess_company_website_eq_chain (probe : String → Option Nat)
    (companyId : String) (linkedin : Option String) :
    guess_company_website probe companyId linkedin
      = firstAccepted probe (seedtableCandidateChain companyId linkedin) := by
  unfold guess_company_website seedtableCandidateChain
  cases linkedin with
  | none => simp
  | some lurl =>
    by_cases h : linkedinSlug lurl = ""
    · simp [h]
    · simp only [h, if_neg h, firstAccepted_append]
      rfl

/-- C5 counterexample: for the slug `"big-data-gmbh"` (which carries the
known suffix `-gmbh`) the name-based fallback builds its candidates from
`"big"` — the part before the *first* hyphen — not from the
suffix-stripped `"big-data"`: no candidate derived from the stripped
slug is ever probed. -/
theorem c5_counterexample_suffix_not_stripped :
    seedtableNameCandidates "big-data-gmbh"
      = ["https://big.com", "https://www.big.com", "https://big.io",
         "https://www.big.io", "https://big.co", "https://www.big.co"] ∧
    stripCorporateSuffix "big-data-gmbh" = "big-data" ∧
    "https://big-data.com" ∉ seedtableNameCandidates "big-data-gmbh" ∧
    "https://bigdata.com" ∉ seedtableNameCandidates "big-data-gmbh" := by decide

/-- C5 (amended): the corporate-suffix strip applies only to the
LinkedIn-slug branch, which probes `.com` candidates only; the name-based
fallback instead derives its base from the part of the SeedTable slug
before the first hyphen (lowercased, non-word characters removed) and
probes `.com` candidates before `.io` before `.co`.  For the
single-token slug `"acme-gmbh"` the two derivations coincide, giving
exactly the claimed candidates and order.  The two branches probe the
concatenated chain in order and accept the first candidate whose HEAD
probe answers with a status < 400, skipping probe failures. -/
theorem c5_domain_guess_theorem :
    seedtableNameCandidates "acme-gmbh"
      = ["https://acme.com", "https://www.acme.com", "https://acme.io",
         "https://www.acme.io", "https://acme.co", "https://www.acme.co"] ∧
    linkedinGuesses (stripCorporateSuffix "acme-gmbh")
      = ["https://acme.com", "https://www.acme.com"] ∧
    (∀ probe companyId linkedin,
      guess_company_website probe companyId linkedin
        = firstAccepted probe (seedtableCandidateChain companyId linkedin)) ∧
    (∀ probe gs, firstAccepted probe gs
        = gs.find? fun g =>
            match probe g with
            | some code => decide (code < 400)
            | none => false) :=
  ⟨by decide, by decide, guess_company_website_eq_chain, firstAccepted_eq_find⟩

/-- The pagination loop follows a chain of non-empty pages and halts at
the first page that fails one of the source's continue conditions,
fetching each chain URL exactly once and concatenating the extracted
records, for any country URL and join function and any sufficient fuel. -/
theorem listingChain_loop (fetch : String → Option ListingPage)
    (urljoin : String → String → String) (countryUrl : String)
    (mids : List (String × ListingPage)) (u lastUrl : String)
    (lastPage : ListingPage) (fuel : Nat)
    (hchain : ListingChain fetch u mids lastUrl)
    (hlast : fetch lastUrl = some lastPage)
    (hhalts : pageHalts lastPage)
    (hfuel : mids.length < fuel) :
    extractCompanyLinksLoop fetch urljoin countryUrl fuel u
      = ((mids.map fun up => entryCompanies up.2.entries).flatten
          ++ entryCompanies lastPage.entries,
         mids.map Prod.fst ++ [lastUrl]) := by
  induction hchain generalizing fuel with
  | last w =>
    obtain ⟨f, rfl⟩ : ∃ f, fuel = f + 1 := ⟨fuel - 1, by omega⟩
    rw [extractCompanyLinksLoop, hlast]
    by_cases hee : lastPage.entries.isEmpty
    · have he : lastPage.entries = [] := by simpa [List.isEmpty_iff] using hee
      simp [hee, he, entryCompanies]
    · simp only [Bool.not_eq_true] at hee
      rcases hhalts with he | hn | hn | hn
      · rw [he] at hee; simp at hee
      · simp [hee, hn]
      · simp [hee, hn]
      · simp [hee, hn]
  | step u v p rest lastUrl2 hf hne hnext hv hhttp hrest ih =>
    obtain ⟨f, rfl⟩ : ∃ f, fuel = f + 1 := ⟨fuel - 1, by omega⟩
    have hee : p.entries.isEmpty = false := by
      simp [List.isEmpty_iff, hne]
    have hres : resolveNextUrl urljoin countryUrl u v = v := by
      simp [resolveNextUrl, hhttp]
    have hlen : rest.length < f := by
      simp only [List.length_cons] at hfuel; omega
    rw [extractCompanyLinksLoop, hf]
    simp only [hee, Bool.false_eq_true, if_false, hnext, if_neg hv, hres,
      ih f hlast hlen, List.map_cons, List.flatten_cons]
    simp [List.append_assoc]

/-- C6 (amended): pagination ends exactly at the first page that fails a
continue condition (fetch failure, no listing containers, or no next
link with a non-empty href) — there is no three-consecutive-empty-page
guard, and a page whose containers yield no records still continues
pagination.  In particular, when the pages form a chain whose Nth member
halts, the stage fetches exactly those N URLs in order and returns the
concatenation of the records of pages 1..N. -/
theorem c6_pagination_chain_theorem (fetch : String → Option ListingPage)
    (urljoin : String → String → String)
    (mids : List (String × ListingPage)) (startUrl lastUrl : String)
    (lastPage : ListingPage) (fuel : Nat)
    (hchain : ListingChain fetch startUrl mids lastUrl)
    (hlast : fetch lastUrl = some lastPage)
    (hhalts : pageHalts lastPage)
    (hfuel : mids.length < fuel) :
    extract_company_links fetch urljoin startUrl fuel
      = ((mids.map fun up => entryCompanies up.2.entries).flatten
          ++ entryCompanies lastPage.entries,
         mids.map Prod.fst ++ [lastUrl]) := by
  unfold extract_company_links
  exact listingChain_loop fetch urljoin startUrl mids startUrl lastUrl lastPage fuel
    hchain hlast hhalts hfuel

/-- Witness for C6's theorem: a two-page chain, fetched as exactly those
two URLs with the records of both pages. -/
theorem c6_pagination_chain_witness :
    extract_company_links chainFetchTwo (fun _ n => n) "http://w.example/1" 5
      = ([("A", "http://w.example/a"), ("B", "http://w.example/b")],
         ["http://w.example/1", "http://w.example/2"]) := by
  have hchain : ListingChain chainFetchTwo "http://w.example/1"
      [("http://w.example/1", chainPageOne)] "http://w.example/2" :=
    ListingChain.step _ _ _ _ _ (by decide) (by decide) (by decide) (by decide)
      (by decide) (ListingChain.last _)
  have h := c6_pagination_chain_theorem chainFetchTwo (fun _ n => n)
    [("http://w.example/1", chainPageOne)] "http://w.example/1" "http://w.example/2"
    chainPageTwo 5 hchain (by decide) (Or.inr (Or.inl rfl)) (by decide)
  rw [h]; decide

/-- C6 counterexample: pages 1–3 each yield no records (their only
container has no title link) yet still paginate; the loop does not stop
after the first such page (as "a fetched page yields no items" would
demand) nor after three consecutive ones — it fetches all four pages and
returns page 4's record. -/
theorem c6_counterexample_empty_pages_continue :
    extract_company_links emptyPagesFetch (fun _ n => n) "http://l.example/p1" 10
      = ([("Last", "http://l.example/last")],
         ["http://l.example/p1", "http://l.example/p2",
          "http://l.example/p3", "http://l.example/p4"]) ∧
    entryCompanies [(⟨none⟩ : ListingEntry)] = [] := by decide

/-- Taking `takeWhile` over a satisfying block followed by a stopping
element. -/
theorem takeWhile_append_stop {α} (p : α → Bool) (x : α) (l r : List α)
    (hl : ∀ c ∈ l, p c = true) (hx : p x = false) :
    (l ++ x :: r).takeWhile p = l := by
  induction l with
  | nil => simp [List.takeWhile_cons, hx]
  | cons a as ih =>
    simp [List.takeWhile_cons, hl a (List.mem_cons_self a as),
      ih fun c hc => hl c (List.mem_cons_of_mem a hc)]

/-- Helper: a list is a `isPrefixOf`-prefix of itself followed by anything. -/
theorem isPrefixOf_append_self {α} [BEq α] [LawfulBEq α] (l t : List α) :
    l.isPrefixOf (l ++ t) = true := by
  induction l with
  | nil => simp [List.isPrefixOf]
  | cons a as ih => simp [List.isPrefixOf, ih]

/-- The search finds the leading `mailto:` and returns everything up to
the first `?`. -/
theorem mailtoSearchAux_extracts (addr rest : List Char)
    (hne : addr ≠ []) (hq : ∀ c ∈ addr, c ≠ '?') :
    mailtoSearchAux ("mailto:".data ++ (addr ++ '?' :: rest)) = some addr := by
  show mailtoSearchAux ('m' :: ("ailto:".data ++ (addr ++ '?' :: rest))) = some addr
  rw [mailtoSearchAux]
  have hshape : 'm' :: ("ailto:".data ++ (addr ++ '?' :: rest))
      = "mailto:".data ++ (addr ++ '?' :: rest) := rfl
  have hpre : ("mailto:".data).isPrefixOf
      ('m' :: ("ailto:".data ++ (addr ++ '?' :: rest))) = true := by
    rw [hshape]
    exact isPrefixOf_append_self _ _
  rw [hpre]
  have hdrop : ('m' :: ("ailto:".data ++ (addr ++ '?' :: rest))).drop 7
      = addr ++ '?' :: rest := by
    rw [hshape, show (7 : Nat) = ("mailto:".data).length from rfl, List.drop_left]
  have htake : (addr ++ '?' :: rest).takeWhile (fun ch => ch != '?') = addr :=
    takeWhile_append_stop _ _ _ _
      (fun c hc => by simpa using hq c hc) (by decide)
  have haddr : addr.isEmpty = false := by
    cases addr with
    | nil => exact absurd rfl hne
    | cons a l => rfl
  simp [hdrop, htake, haddr]

/-- C4: an anchor href of the form `mailto:<address>?<params>` yields
exactly `<address>`: the search extracts it, the per-anchor loop appends
it to the mailto-emails list without any validity or extension filter
(the statement holds for every address, also ones `is_valid_email`
rejects), and `scan_page_for_emails` on such a URL returns exactly that
address without crawling or regex-scanning anything. -/
theorem c4_mailto_bypass_theorem (addr params : String)
    (hne : addr ≠ "") (hq : ∀ c ∈ addr.data, c ≠ '?') :
    mailtoSearch ("mailto:" ++ addr ++ "?" ++ params) = some addr ∧
    (∀ page llm,
      scan_page_for_emails ("mailto:" ++ addr ++ "?" ++ params) page llm
        = ([addr], 0)) ∧
    (∀ keywords url txt,
      processAnchors keywords url [⟨"mailto:" ++ addr ++ "?" ++ params, txt⟩]
        = ([], [addr])) := by
  have hdata : ("mailto:" ++ addr ++ "?" ++ params).data
      = "mailto:".data ++ (addr.data ++ '?' :: params.data) := by
    simp [String.data_append]
  have haddr : addr.data ≠ [] := by
    intro h
    exact hne (String.ext (h.trans rfl))
  have hsearch : mailtoSearch ("mailto:" ++ addr ++ "?" ++ params) = some addr := by
    unfold mailtoSearch
    rw [hdata, mailtoSearchAux_extracts addr.data params.data haddr
      (fun c hc => hq c hc)]
    cases addr
    rfl
  have hstart : pyStartsWith ("mailto:" ++ addr ++ "?" ++ params) "mailto:" = true := by
    unfold pyStartsWith
    rw [hdata]
    exact isPrefixOf_append_self _ _
  refine ⟨hsearch, ?_, ?_⟩
  · intro page llm
    simp [scan_page_for_emails, hstart, hsearch]
  · intro keywords url txt
    simp [processAnchors, hstart, hsearch]

/-- Witness for C4's theorem: the claimed concrete href, plus an address
that the validity filter would reject and that is still yielded. -/
theorem c4_mailto_bypass_witness :
    mailtoSearch "mailto:jane@corp.com?subject=hi" = some "jane@corp.com" ∧
    scan_page_for_emails "mailto:jane@corp.com?subject=hi" ⟨true, ""⟩ none
      = (["jane@corp.com"], 0) ∧
    scan_page_for_emails "mailto:logo.png?subject=hi" ⟨true, ""⟩ none
      = (["logo.png"], 0) ∧
    is_valid_email "logo.png" = false := by
  have h := c4_mailto_bypass_theorem "jane@corp.com" "subject=hi"
    (by decide) (by decide)
  have h2 := c4_mailto_bypass_theorem "logo.png" "subject=hi"
    (by decide) (by decide)
  exact ⟨h.1, h.2.1 ⟨true, ""⟩ none, h2.2.1 ⟨true, ""⟩ none, by decide⟩

/-- The retry loop never exceeds `max_retries` attempts. -/
theorem llmRetryLoop_attempts_le (oracle : Nat → LLMOutcome) :
    ∀ (fuel attempt : Nat), attempt ≤ MAX_LLM_RETRIES →
      (llmRetryLoop oracle fuel attempt).2 ≤ MAX_LLM_RETRIES := by
  intro fuel
  induction fuel with
  | zero => intro a ha; simpa [llmRetryLoop] using ha
  | succ f ih =>
    intro a ha
    rw [llmRetryLoop]
    by_cases h : a < MAX_LLM_RETRIES
    · simp only [if_pos h]
      cases oracle (a + 1) with
      | jsonEmails es => simpa using h
      | jsonNoEmails => exact ih (a + 1) h
      | rawText t =>
        by_cases he : (extract_emails_from_text t).isEmpty
        · simpa [he] using ih (a + 1) h
        · simpa [he] using h
      | noContent => exact ih (a + 1) h
      | timedOut => simpa using h
      | exn b =>
        cases b with
        | false => exact ih (a + 1) h
        | true => simpa using h
    · simpa [if_neg h] using ha

/-- C9 counterexample: a configuration-class API error while scanning the
first page does not short-circuit the secondary strategy for the rest of
the run — the second page scanned still makes an LLM attempt (one
attempt each, where the claim demands zero for the later item). -/
theorem c9_counterexample_no_run_wide_short_circuit :
    (scan_pages_in_sequence
      [("https://a.example", ⟨true, ""⟩, some fun _ => .exn true),
       ("https://b.example", ⟨true, ""⟩, some fun _ => .exn true)]).map Prod.snd
      = [1, 1] := by decide

/-- C9 (amended): the secondary (LLM) strategy runs only when the primary
regex scan yields no emails; it makes at most `max_retries = 2` attempts
per page; a detected configuration-class error ends the retry loop for
the *current* page after that attempt; and the scan of each page is
independent of every earlier page — nothing persists for the remainder
of the run, so later items invoke the secondary strategy again. -/
theorem c9_llm_retry_theorem :
    (∀ url page oracle, pyStartsWith url "mailto:" = false →
      page.success = true → extract_emails_from_text page.cleanedHtml ≠ [] →
      scan_page_for_emails url page (some oracle)
        = (extract_emails_from_text page.cleanedHtml, 0)) ∧
    (∀ url page llm, (scan_page_for_emails url page llm).2 ≤ MAX_LLM_RETRIES) ∧
    (∀ oracle, oracle 1 = .exn true →
      llmRetryLoop oracle MAX_LLM_RETRIES 0 = ([], 1)) ∧
    (∀ i rest, scan_pages_in_sequence (i :: rest)
      = scan_page_for_emails i.1 i.2.1 i.2.2 :: scan_pages_in_sequence rest) := by
  refine ⟨?_, ?_, ?_, fun i rest => rfl⟩
  · intro url page oracle hm hs hne
    have he : (extract_emails_from_text page.cleanedHtml).isEmpty = false := by
      cases hx : extract_emails_from_text page.cleanedHtml with
      | nil => exact absurd hx hne
      | cons a l => rfl
    simp [scan_page_for_emails, hm, hs, he]
  · intro url page llm
    unfold scan_page_for_emails
    by_cases hm : pyStartsWith url "mailto:"
    · cases hms : mailtoSearch url <;> simp [hm, hms]
    · simp only [hm, Bool.false_eq_true, if_false]
      cases llm with
      | none => simp
      | some oracle =>
        by_cases he : (if page.success then extract_emails_from_text page.cleanedHtml
            else []).isEmpty
        · simpa [he] using llmRetryLoop_attempts_le oracle MAX_LLM_RETRIES 0 (by decide)
        · simp [he]
  · intro oracle h
    show llmRetryLoop oracle (1 + 1) 0 = ([], 1)
    rw [llmRetryLoop]
    simp [h, MAX_LLM_RETRIES]

/-- Witness for C9's theorem: a page whose regex scan finds an email is
returned as-is with zero LLM attempts, and a configuration-class error on
the first attempt ends the loop after exactly one attempt. -/
theorem c9_llm_retry_witness :
    scan_page_for_emails "https://x.example" ⟨true, "write to info@a.de"⟩
      (some fun _ => .exn true) = (["info@a.de"], 0) ∧
    llmRetryLoop (fun _ => .exn true) MAX_LLM_RETRIES 0 = ([], 1) := by
  constructor
  · have h1 := c9_llm_retry_theorem.1 "https://x.example" ⟨true, "write to info@a.de"⟩
      (fun _ => .exn true) (by decide) rfl (by decide)
    rw [h1]; decide
  · exact c9_llm_retry_theorem.2.2.1 (fun _ => .exn true) rfl

/-- Each processed record contributes exactly its own identity key. -/
theorem process_company_keys (oracle : String → EmailOutcome) (c : InputCompany) :
    (process_company oracle c).map (fun r => r.website_url) = [c.website_url] := by
  unfold process_company
  by_cases h : c.website_url = ""
  · simp [h, rowFor]
  · cases oracle c.website_url <;> simp [h, rowFor]

/-- Keys of a processed batch are the input keys, in order. -/
theorem flatMap_process_keys (oracle : String → EmailOutcome)
    (l : List InputCompany) :
    (l.flatMap (process_company oracle)).map (fun r => r.website_url)
      = l.map fun c => c.website_url := by
  induction l with
  | nil => rfl
  | cons c cs ih => simp [List.flatMap_cons, process_company_keys, ih]

/-- With no existing output file, the stage processes every input record. -/
theorem process_consolidated_csv_none (oracle : String → EmailOutcome)
    (input : List InputCompany) :
    process_consolidated_csv oracle input none
      = input.flatMap (process_company oracle) := by
  unfold process_consolidated_csv
  cases input with
  | nil => rfl
  | cons c cs => simp [existingSeen]

/-- Mapping to keys commutes with the seen-set filter. -/
theorem keys_filter_contains (input : List InputCompany) (seen : List String) :
    ((input.filter fun c => !(seen.contains c.website_url)).map
        fun c => c.website_url)
      = (input.map fun c => c.website_url).filter fun k => !(seen.contains k) := by
  induction input with
  | nil => rfl
  | cons c cs ih =>
    by_cases h : c.website_url ∈ seen <;> simp [List.filter_cons, h] <;>
      simpa using ih

/-- Key-level content of the resume step: appending the rows of the
still-unseen keys to a sublist of the full key list restores exactly the
full key set, without duplicates. -/
theorem resume_keys_spec (K E : List String) (hK : K.Nodup) (hE : E.Sublist K) :
    (∀ k, k ∈ E ++ K.filter (fun x => !(E.contains x)) ↔ k ∈ K) ∧
    (E ++ K.filter fun x => !(E.contains x)).Nodup ∧
    ((K.filter fun x => !(E.contains x)) = [] → ∀ k, k ∈ E ↔ k ∈ K) := by
  refine ⟨?_, ?_, ?_⟩
  · intro k
    constructor
    · intro hk
      rcases List.mem_append.1 hk with h | h
      · exact hE.subset h
      · exact (List.mem_filter.1 h).1
    · intro hk
      by_cases hkE : k ∈ E
      · exact List.mem_append.2 (Or.inl hkE)
      · refine List.mem_append.2 (Or.inr (List.mem_filter.2 ⟨hk, ?_⟩))
        simp [hkE]
  · refine List.Nodup.append (hK.sublist hE) (hK.filter _) ?_
    intro a haE haF
    have h := (List.mem_filter.1 haF).2
    simp at h
    exact h haE
  · intro hF k
    constructor
    · intro hk; exact hE.subset hk
    · intro hk
      by_contra hkE
      have : k ∈ K.filter fun x => !(E.contains x) :=
        List.mem_filter.2 ⟨hk, by simp [hkE]⟩
      rw [hF] at this
      exact absurd this (List.not_mem_nil k)

/-- With a non-empty existing file of non-empty keys, the resume path
keeps the file and appends the still-unseen records' rows. -/
theorem process_consolidated_csv_some (oracle : String → EmailOutcome)
    (input : List InputCompany) (existing : List OutputRow)
    (hnil : existing ≠ []) (hkeysne : ∀ r ∈ existing, r.website_url ≠ "") :
    process_consolidated_csv oracle input (some existing)
      = (if (input.filter fun c =>
            !((existingSeen existing).contains c.website_url)).isEmpty
         then existing
         else existing ++ (input.filter fun c =>
            !((existingSeen existing).contains c.website_url)).flatMap
              (process_company oracle)) := by
  have hseen : (existingSeen existing).isEmpty = false := by
    cases existing with
    | nil => exact absurd rfl hnil
    | cons r rs =>
      have hr : r.website_url ≠ "" := hkeysne r (List.mem_cons_self r rs)
      simp [existingSeen, List.filter_cons, hr]
  unfold process_consolidated_csv
  simp [hseen]

/-- C1 counterexample: the stage does not deduplicate its input within a
run — with two input records sharing one `website_url`, a single
uninterrupted run writes two rows with the same identity key. -/
theorem c1_counterexample_duplicate_keys :
    ((process_consolidated_csv okEmptyOracle dupKeyInput none).map
        fun r => r.website_url)
      = ["https://a.com", "https://a.com"] ∧
    ¬ ((process_consolidated_csv okEmptyOracle dupKeyInput none).map
        fun r => r.website_url).Nodup := by decide

/-- C1 (amended): provided the input CSV's `website_url` values are
pairwise distinct and non-empty, resuming from any interrupted (or
complete) prior output yields an output whose identity-key set equals
that of a single uninterrupted run, and neither run's output contains
two rows with the same identity key. -/
theorem c1_resume_key_set_theorem (oracle : String → EmailOutcome)
    (input : List InputCompany) (existing : List OutputRow)
    (hkeys : (input.map fun c => c.website_url).Nodup)
    (hne : ∀ c ∈ input, c.website_url ≠ "")
    (hsub : existing.Sublist (process_consolidated_csv oracle input none)) :
    (∀ k, k ∈ (process_consolidated_csv oracle input (some existing)).map
          (fun r => r.website_url)
        ↔ k ∈ (process_consolidated_csv oracle input none).map
          fun r => r.website_url) ∧
    ((process_consolidated_csv oracle input (some existing)).map
        fun r => r.website_url).Nodup ∧
    ((process_consolidated_csv oracle input none).map
        fun r => r.website_url).Nodup := by
  have hsingleKeys : (process_consolidated_csv oracle input none).map
      (fun r => r.website_url) = input.map fun c => c.website_url := by
    rw [process_consolidated_csv_none]
    exact flatMap_process_keys oracle input
  have hEsub : (existing.map fun r => r.website_url).Sublist
      (input.map fun c => c.website_url) := by
    have h := hsub.map fun r => r.website_url
    rwa [hsingleKeys] at h
  have hEne : ∀ r ∈ existing, r.website_url ≠ "" := by
    intro r hr
    have hmem : r.website_url ∈ input.map fun c => c.website_url :=
      hEsub.subset (List.mem_map_of_mem _ hr)
    obtain ⟨c, hc, hceq⟩ := List.mem_map.1 hmem
    rw [← hceq]
    exact hne c hc
  have hseenE : existingSeen existing = existing.map fun r => r.website_url := by
    unfold existingSeen
    apply List.filter_eq_self.2
    intro k hk
    obtain ⟨r, hr, rfl⟩ := List.mem_map.1 hk
    simp [hEne r hr]
  by_cases hex : existing = []
  · subst hex
    have hres : process_consolidated_csv oracle input (some [])
        = process_consolidated_csv oracle input none := by
      unfold process_consolidated_csv
      cases input <;> simp [existingSeen]
    rw [hres, hsingleKeys]
    exact ⟨fun k => Iff.rfl, hkeys, hkeys⟩
  · have hspec := resume_keys_spec (input.map fun c => c.website_url)
      (existing.map fun r => r.website_url) hkeys hEsub
    rw [process_consolidated_csv_some oracle input existing hex hEne, hsingleKeys]
    by_cases htodo : (input.filter fun c =>
        !((existingSeen existing).contains c.website_url)).isEmpty
    · have hFnil : ((input.map fun c => c.website_url).filter
          fun k => !((existing.map fun r => r.website_url).contains k)) = [] := by
        rw [← keys_filter_contains input (existing.map fun r => r.website_url)]
        rw [← hseenE, List.isEmpty_iff.1 htodo]
        rfl
      have hiff := hspec.2.2 hFnil
      rw [if_pos htodo]
      exact ⟨fun k => hiff k, hkeys.sublist hEsub, hkeys⟩
    · have hkeysEq : ((existing ++ (input.filter fun c =>
          !((existingSeen existing).contains c.website_url)).flatMap
            (process_company oracle)).map fun r => r.website_url)
          = (existing.map fun r => r.website_url)
            ++ (input.map fun c => c.website_url).filter
              fun k => !((existing.map fun r => r.website_url).contains k) := by
        rw [List.map_append, flatMap_process_keys, ← hseenE,
          keys_filter_contains input (existingSeen existing)]
      rw [if_neg htodo, hkeysEq]
      exact ⟨fun k => hspec.1 k, hspec.2.1, hkeys⟩

/-- Witness for C1's theorem: an input of two distinct keyed records and
an interrupted prior output holding the first record's row. -/
theorem c1_resume_key_set_witness :
    (∀ k, k ∈ (process_consolidated_csv okEmptyOracle resumeInput
          (some resumePartial)).map (fun r => r.website_url)
        ↔ k ∈ (process_consolidated_csv okEmptyOracle resumeInput none).map
          fun r => r.website_url) ∧
    ((process_consolidated_csv okEmptyOracle resumeInput
        (some resumePartial)).map fun r => r.website_url).Nodup ∧
    ((process_consolidated_csv okEmptyOracle resumeInput none).map
        fun r => r.website_url).Nodup :=
  c1_resume_key_set_theorem okEmptyOracle resumeInput resumePartial
    (by decide) (by decide) (by decide)

/-- Witness for C2's theorem at a concrete record and oracle. -/
theorem c2_exactly_one_row_witness :
    ∃ row, process_company okEmptyOracle
        ⟨"Acme", "Germany", "http://eu.example/d/acme", "https://a.com"⟩ = [row] ∧
      row.website_url = (⟨"Acme", "Germany", "http://eu.example/d/acme",
        "https://a.com"⟩ : InputCompany).website_url ∧
      (((⟨"Acme", "Germany", "http://eu.example/d/acme",
          "https://a.com"⟩ : InputCompany).website_url = "" ∧ row.emails = "") ∨
       (∃ es, okEmptyOracle (⟨"Acme", "Germany", "http://eu.example/d/acme",
          "https://a.com"⟩ : InputCompany).website_url = .ok es ∧
          row.emails = if es.isEmpty then "" else joinComma es) ∨
       (∃ r, okEmptyOracle (⟨"Acme", "Germany", "http://eu.example/d/acme",
          "https://a.com"⟩ : InputCompany).website_url = .err r ∧
          row.emails = "ERROR: " ++ r)) :=
  c2_exactly_one_row_per_company okEmptyOracle
    ⟨"Acme", "Germany", "http://eu.example/d/acme", "https://a.com"⟩

/-- Witness for C7's theorem at fuel 2. -/
theorem c7_no_cycle_guard_witness :
    (extract_company_links selfLoopFetch (fun _ n => n) selfLoopUrl 2).2
      = List.replicate 2 selfLoopUrl :=
  c7_no_cycle_guard_theorem 2
